import Mathlib

/-!
Shallow embedding of the OPC UA tag-polling client of this repository:
class OPCUAClient in src/ui/scada_dialog.py, together with the consumer
slot PopupDialog._on_write_failed in src/ui/popup_dialog.py.

Modelling conventions:
  * Python scalar tag values are modelled by `Val` (booleans and integers);
    the Python value `None` is modelled by `Option Val` where it can occur
    (a server read may in principle yield `None`, and the code guards
    emission with `value_to_emit is not None`).
  * Python dicts keyed by tag name (`current_values`, `write_timestamps`,
    `last_emitted_values`) are modelled as function maps
    `String → Option α`: a dict holds at most one entry per key, `d[k] = v`
    is `mupdate m k (some v)` and `del d[k]` is `mupdate m k none`.
  * `self.nodes` is kept as an association list (insertion ordered, like a
    CPython dict) because the poll loop iterates over it and because node
    handles need identity (they are connection scoped); a handle is an
    opaque `Nat` chosen by the environment at resolution time.
  * The environment of one poll cycle is a function
    `reads : String → Option (Option Val)`: `none` means `node.read_value()`
    raised (the per-tag `except` path), `some v` means the read returned
    the Python value `v` (`some none` = Python `None`).
  * Wall-clock timestamps (`time.time()`) are `Int` seconds.
  * Qt signal emissions are collected in an explicit `List Event`.
-/

/-- Scalar tag values (the booleans and numbers the panel reads/writes). -/
inductive Val where
  | vBool : Bool → Val
  | vInt : Int → Val
  deriving DecidableEq, Repr

/-- The Qt signals the client emits: `update_signal` (a value batch),
`connection_lost_signal`, `connection_restored_signal`,
`write_failed_signal`. -/
inductive Event where
  | batch : List (String × Val) → Event
  | connectionLost : Event
  | connectionRestored : Event
  | writeFailed : String → Event
  deriving DecidableEq, Repr

/-- Point update of a function map (Python dict assignment / deletion). -/
def mupdate {α : Type} (m : String → Option α) (k : String) (v : Option α) :
    String → Option α :=
  fun k2 => if k2 = k then v else m k2

/-- Lookup in an association list (first matching key wins). -/
def lookupA {α : Type} : List (String × α) → String → Option α
  | [], _ => none
  | (k, v) :: rest, key => if k = key then some v else lookupA rest key

/-- CPython-dict insertion on an association list: replace the value in
place when the key is present, append otherwise. -/
def insertA {α : Type} : List (String × α) → String → α → List (String × α)
  | [], key, val => [(key, val)]
  | (k, v) :: rest, key, val =>
      if k = key then (k, val) :: rest else (k, v) :: insertA rest key val

/-- The keys of an association list. -/
def keysA {α : Type} (m : List (String × α)) : List String := m.map Prod.fst

/-- The write-settlement timeout: `self.write_timeout = 10` seconds,
set in `OPCUAClient.__init__` and never mutated. -/
def write_timeout : Int := 10

/-- The state of an `OPCUAClient` instance, as read and mutated by
`write_value`, `read_value`, `_write_async` and `_run_client`.
`hasClient` models `self.client` being a live object, `hasLoop` models
`hasattr(self, 'loop')` (the loop attribute is created in `run`). -/
structure ClientState where
  tag_list : List (String × String)
  nodes : List (String × Nat)
  current_values : String → Option Val
  write_timestamps : String → Option Int
  last_emitted_values : String → Option (Option Val)
  is_connected : Bool
  connection_fail_count : Nat
  hasClient : Bool
  hasLoop : Bool

/-- `OPCUAClient.__init__(server_url, tag_list)`. -/
def initState (tl : List (String × String)) : ClientState :=
  { tag_list := tl, nodes := [], current_values := fun _ => none,
    write_timestamps := fun _ => none, last_emitted_values := fun _ => none,
    is_connected := false, connection_fail_count := 0,
    hasClient := false, hasLoop := false }

/-- `OPCUAClient.write_value(tag_name, value)` at wall-clock time `now`:
guarded by `tag_name in self.nodes and self.client and hasattr(self, 'loop')`,
it caches the value and timestamp and schedules `_write_async`.  The `Bool`
of the result records whether the coroutine was scheduled. -/
def write_value (s : ClientState) (tag : String) (v : Val) (now : Int) :
    ClientState × Bool :=
  if (lookupA s.nodes tag).isSome ∧ s.hasClient = true ∧ s.hasLoop = true then
    ({ s with current_values := mupdate s.current_values tag (some v),
              write_timestamps := mupdate s.write_timestamps tag (some now) },
     true)
  else (s, false)

/-- Outcome of a call to the synchronous `OPCUAClient.read_value`. -/
inductive ReadCall where
  | returns : Option Val → ReadCall
  | blocksForever : ReadCall
  deriving DecidableEq, Repr

/-- `OPCUAClient.read_value(tag_name)`.  When the guard
`tag_name in self.nodes and self.client` holds, the caller waits on
`future.result()` — called with NO timeout argument — for the worker loop
to run `_read_async`.  `workerReply = some r` models the future completing
with `r` (`_read_async` returns the value, or `None` on an exception);
`workerReply = none` models the future never completing, in which case
`future.result()` never returns and the caller blocks forever. -/
def read_value (s : ClientState) (tag : String)
    (workerReply : Option (Option Val)) : ReadCall :=
  if (lookupA s.nodes tag).isSome ∧ s.hasClient = true then
    match workerReply with
    | some r => ReadCall.returns r
    | none => ReadCall.blocksForever
  else ReadCall.returns none

/-- `OPCUAClient._write_async(tag_name, value)`: on success it only prints
(the cache is kept until polling confirms); on any exception it emits
`write_failed_signal(tag_name)`.  `ok` is whether the transport write
succeeded.  The client state is untouched either way. -/
def write_async (s : ClientState) (tag : String) (ok : Bool) :
    ClientState × List Event :=
  if ok then (s, []) else (s, [Event.writeFailed tag])

/-- `PopupDialog._on_write_failed(tag_name)` (src/ui/popup_dialog.py):
the consumer of `write_failed_signal` deletes the cached pending value. -/
def on_write_failed (s : ClientState) (tag : String) : ClientState :=
  if (s.current_values tag).isSome then
    { s with current_values := mupdate s.current_values tag none }
  else s

/-- The accumulator of one poll cycle of `_run_client` (lines 151-208):
the three dicts, `self.connection_fail_count`, the `updates` dict being
built, and the local `poll_success` flag. -/
structure CycleAcc where
  cv : String → Option Val
  wt : String → Option Int
  le : String → Option (Option Val)
  cfc : Nat
  updates : List (String × Val)
  pollSuccess : Bool

/-- Lines 201-204 of `_run_client`: `if should_emit and value_to_emit is
not None`, record the update and advance `last_emitted_values`. -/
def finishTag (acc : CycleAcc) (tag : String) (value_to_emit : Option Val)
    (should_emit : Bool) : CycleAcc :=
  if should_emit then
    match value_to_emit with
    | some v =>
        { acc with updates := insertA acc.updates tag v,
                   le := mupdate acc.le tag (some (some v)) }
    | none => acc
  else acc

/-- The per-tag body of the poll loop (lines 157-208 of `_run_client`).
`readRes = none` is the `except` path of a failed `node.read_value()`
(increment `self.connection_fail_count`); on a successful read
`poll_success` is set first, then the write-reconciliation cases run:
confirmed (server equals cached), timed out (`elapsed > write_timeout`),
pending within the window (emit the cached value only when it differs
from the last emitted value), or no pending write (emit the server value
only when it differs).  A `last_emitted_values[tag]` lookup on a missing
key would raise `KeyError` inside the same `try`, landing in the same
`except` arm. -/
def pollTag (now : Int) (readRes : Option (Option Val)) (tag : String)
    (acc0 : CycleAcc) : CycleAcc :=
  match readRes with
  | none => { acc0 with cfc := acc0.cfc + 1 }
  | some server_value =>
    let acc := { acc0 with pollSuccess := true }
    match acc.cv tag with
    | some cached_value =>
        let elapsed : Int := now - ((acc.wt tag).getD now)
        if server_value = some cached_value then
          finishTag { acc with cv := mupdate acc.cv tag none,
                               wt := mupdate acc.wt tag none }
            tag server_value true
        else if write_timeout < elapsed then
          finishTag { acc with cv := mupdate acc.cv tag none,
                               wt := mupdate acc.wt tag none }
            tag server_value true
        else
          match acc.le tag with
          | none => { acc with cfc := acc.cfc + 1 }
          | some last =>
              finishTag acc tag (some cached_value)
                (decide (last ≠ some cached_value))
    | none =>
        match acc.le tag with
        | none => { acc with cfc := acc.cfc + 1 }
        | some last =>
            finishTag acc tag server_value (decide (last ≠ server_value))

/-- `for tag_name, node in self.nodes.items(): ...` — fold the per-tag
body over the node list. -/
def pollNodes (now : Int) (reads : String → Option (Option Val))
    (l : List (String × Nat)) (acc : CycleAcc) : CycleAcc :=
  l.foldl (fun a p => pollTag now (reads p.1) p.1 a) acc

/-- The fresh accumulator at the top of a cycle (`updates = {}`,
`poll_success = False`). -/
def initAcc (s : ClientState) : CycleAcc :=
  { cv := s.current_values, wt := s.write_timestamps,
    le := s.last_emitted_values, cfc := s.connection_fail_count,
    updates := [], pollSuccess := false }

/-- Result of one iteration of the inner polling loop: the new client
state, the new `poll_fail_count`, the signals emitted this cycle in
order, and whether the loop `break`s out to reconnect. -/
structure CycleResult where
  state : ClientState
  pfc : Nat
  events : List Event
  brk : Bool

/-- One full iteration of the inner polling loop of `_run_client`
(lines 150-233): read every node, then the health epilogue — on a cycle
with zero successful reads increment `poll_fail_count` and, at 3
consecutive failures while connected, emit `connection_lost_signal` and
`break` (skipping the batch emission); on a cycle with at least one
successful read reset `poll_fail_count`, and when
`self.connection_fail_count` was positive clear it and, if disconnected,
emit `connection_restored_signal`; finally emit `update_signal(updates)`
when `updates` is non-empty. -/
def runCycle (s : ClientState) (pfc : Nat) (now : Int)
    (reads : String → Option (Option Val)) : CycleResult :=
  let acc := pollNodes now reads s.nodes (initAcc s)
  let s1 : ClientState :=
    { s with current_values := acc.cv, write_timestamps := acc.wt,
             last_emitted_values := acc.le, connection_fail_count := acc.cfc }
  if acc.pollSuccess = false then
    if 3 ≤ pfc + 1 ∧ s1.is_connected = true then
      { state := { s1 with is_connected := false }, pfc := pfc + 1,
        events := [Event.connectionLost], brk := true }
    else
      { state := s1, pfc := pfc + 1,
        events := if acc.updates = [] then [] else [Event.batch acc.updates],
        brk := false }
  else
    let s2 := if 0 < acc.cfc then
        { s1 with connection_fail_count := 0, is_connected := true }
      else s1
    let evs1 := if 0 < acc.cfc ∧ s1.is_connected = false then
        [Event.connectionRestored]
      else []
    { state := s2, pfc := 0,
      events := evs1 ++
        (if acc.updates = [] then [] else [Event.batch acc.updates]),
      brk := false }

/-- Iterate poll cycles (the inner `while self.running` loop), stopping
when a cycle `break`s; each cycle gets its wall-clock time and its read
outcomes from the environment trace. -/
def runCycles : List (Int × (String → Option (Option Val))) → ClientState →
    Nat → ClientState × Nat × List Event
  | [], s, pfc => (s, pfc, [])
  | c :: rest, s, pfc =>
    let r := runCycle s pfc c.1 c.2
    if r.brk then (r.state, r.pfc, r.events)
    else
      let t := runCycles rest r.state r.pfc
      (t.1, t.2.1, r.events ++ t.2.2)

/-- Node resolution after connect (lines 132-138 of `_run_client`):
for each `(tag_name, node_id)` of `self.tag_list`, `client.get_node`
either yields a handle (dict assignment into `self.nodes`) or raises
(logged and skipped — note `self.nodes` is NOT cleared first). -/
def resolveNodes (resolve : String → Option Nat) (tl : List (String × String))
    (nodes0 : List (String × Nat)) : List (String × Nat) :=
  tl.foldl (fun ns p =>
    match resolve p.2 with
    | some h => insertA ns p.1 h
    | none => ns) nodes0

/-- Lines 142-144 of `_run_client`: `for tag_name in self.nodes.keys():
self.last_emitted_values[tag_name] = None`. -/
def resetEmitted (nodes : List (String × Nat))
    (le0 : String → Option (Option Val)) : String → Option (Option Val) :=
  nodes.foldl (fun m p => mupdate m p.1 (some none)) le0

/-- The successful-connect prologue of an outer `_run_client` iteration
(lines 120-146): construct the client, connect, emit
`connection_restored_signal` when not already connected, resolve all
tags into `self.nodes`, and reset `last_emitted_values` to `None` for
every key of `self.nodes`.  `resolve` maps a node-id string to the
handle the new connection yields, or `none` when `get_node` raises. -/
def connectStep (s : ClientState) (resolve : String → Option Nat) :
    ClientState × List Event :=
  let evs := if s.is_connected = false then [Event.connectionRestored] else []
  let nodes1 := resolveNodes resolve s.tag_list s.nodes
  let le1 := resetEmitted nodes1 s.last_emitted_values
  ({ s with hasClient := true, is_connected := true, nodes := nodes1,
            last_emitted_values := le1 }, evs)

/-! ### Basic map lemmas -/

theorem mupdate_self {α : Type} (m : String → Option α) (k : String)
    (v : Option α) : mupdate m k v k = v := by
  simp [mupdate]

theorem mupdate_ne {α : Type} (m : String → Option α) (k k2 : String)
    (v : Option α) (h : k2 ≠ k) : mupdate m k v k2 = m k2 := by
  simp [mupdate, h]

theorem lookupA_insertA_self {α : Type} (m : List (String × α)) (k : String)
    (v : α) : lookupA (insertA m k v) k = some v := by
  induction m with
  | nil => simp [insertA, lookupA]
  | cons p rest ih =>
    obtain ⟨pk, pv⟩ := p
    by_cases h : pk = k
    · simp [insertA, lookupA, h]
    · simp [insertA, lookupA, h, ih]

theorem lookupA_insertA_ne {α : Type} (m : List (String × α)) (k t : String)
    (v : α) (h : t ≠ k) : lookupA (insertA m k v) t = lookupA m t := by
  have hk : ¬ k = t := fun hh => h hh.symm
  induction m with
  | nil => simp [insertA, lookupA, hk]
  | cons p rest ih =>
    obtain ⟨pk, pv⟩ := p
    by_cases hp : pk = k
    · subst hp
      simp [insertA, lookupA, hk]
    · by_cases hpt : pk = t
      · simp [insertA, lookupA, hp, hpt, hk, h]
      · simp [insertA, lookupA, hp, hpt, ih]

theorem lookupA_some_ne_nil {α : Type} (m : List (String × α)) (t : String)
    (v : α) (h : lookupA m t = some v) : m ≠ [] := by
  intro hnil
  rw [hnil] at h
  simp [lookupA] at h

theorem keysA_cons {α : Type} (p : String × α) (l : List (String × α)) :
    keysA (p :: l) = p.1 :: keysA l := rfl

theorem not_mem_keysA_cons {α : Type} {p : String × α} {l : List (String × α)}
    {t : String} (h : t ∉ keysA (p :: l)) : t ≠ p.1 ∧ t ∉ keysA l := by
  rw [keysA_cons] at h
  exact ⟨fun hh => h (hh ▸ List.mem_cons_self _ _),
         fun hh => h (List.mem_cons_of_mem _ hh)⟩

/-! ### finishTag lemmas -/

theorem finishTag_cv (acc : CycleAcc) (tag : String) (v : Option Val)
    (b : Bool) : (finishTag acc tag v b).cv = acc.cv := by
  unfold finishTag
  cases b <;> cases v <;> rfl

theorem finishTag_wt (acc : CycleAcc) (tag : String) (v : Option Val)
    (b : Bool) : (finishTag acc tag v b).wt = acc.wt := by
  unfold finishTag
  cases b <;> cases v <;> rfl

theorem finishTag_cfc (acc : CycleAcc) (tag : String) (v : Option Val)
    (b : Bool) : (finishTag acc tag v b).cfc = acc.cfc := by
  unfold finishTag
  cases b <;> cases v <;> rfl

theorem finishTag_pollSuccess (acc : CycleAcc) (tag : String) (v : Option Val)
    (b : Bool) : (finishTag acc tag v b).pollSuccess = acc.pollSuccess := by
  unfold finishTag
  cases b <;> cases v <;> rfl

theorem finishTag_le_ne (acc : CycleAcc) (tag t : String) (v : Option Val)
    (b : Bool) (h : t ≠ tag) : (finishTag acc tag v b).le t = acc.le t := by
  unfold finishTag
  cases b <;> cases v <;> simp [mupdate_ne _ _ _ _ h]

theorem finishTag_updates_ne (acc : CycleAcc) (tag t : String)
    (v : Option Val) (b : Bool) (h : t ≠ tag) :
    lookupA (finishTag acc tag v b).updates t = lookupA acc.updates t := by
  unfold finishTag
  cases b <;> cases v <;> simp [lookupA_insertA_ne _ _ _ _ h]

theorem finishTag_false (acc : CycleAcc) (tag : String) (v : Option Val) :
    finishTag acc tag v false = acc := rfl

theorem finishTag_true_some (acc : CycleAcc) (tag : String) (v : Val) :
    finishTag acc tag (some v) true =
      { acc with updates := insertA acc.updates tag v,
                 le := mupdate acc.le tag (some (some v)) } := rfl

/-! ### pollTag equations: one per reconciliation branch -/

theorem pollTag_readFail (now : Int) (t : String) (a : CycleAcc) :
    pollTag now none t a = { a with cfc := a.cfc + 1 } := rfl

/-- Confirmed write: the server value equals the cached pending value.
Both cache entries are deleted and the value is recorded in `updates`
unconditionally (no comparison against the last emitted value). -/
theorem pollTag_confirm (now : Int) (t : String) (a : CycleAcc) (B : Val)
    (h : a.cv t = some B) :
    pollTag now (some (some B)) t a =
      { a with pollSuccess := true,
               cv := mupdate a.cv t none, wt := mupdate a.wt t none,
               updates := insertA a.updates t B,
               le := mupdate a.le t (some (some B)) } := by
  unfold pollTag
  dsimp only
  rw [h]
  simp [finishTag]

/-- Abandoned write: the server value differs from the cached value and
the settlement window has elapsed.  Both cache entries are deleted and
the polled server value is recorded in `updates` unconditionally. -/
theorem pollTag_timeout (now : Int) (t : String) (a : CycleAcc)
    (pv u : Val) (ts : Int) (h : a.cv t = some pv) (hne : u ≠ pv)
    (hts : a.wt t = some ts) (helapsed : write_timeout < now - ts) :
    pollTag now (some (some u)) t a =
      { a with pollSuccess := true,
               cv := mupdate a.cv t none, wt := mupdate a.wt t none,
               updates := insertA a.updates t u,
               le := mupdate a.le t (some (some u)) } := by
  unfold pollTag
  dsimp only
  rw [h, hts]
  have hval : ¬ ((some u : Option Val) = some pv) := by simp [hne]
  simp only [Option.getD_some, hval, if_false, helapsed, if_true]
  simp [finishTag]

/-- Pending write within the settlement window: the cached value and the
timestamp are kept, whatever the last-emitted comparison decides. -/
theorem pollTag_window_keeps (now : Int) (t : String) (a : CycleAcc)
    (pv : Val) (sv : Option Val) (ts : Int) (h : a.cv t = some pv)
    (hne : sv ≠ some pv) (hts : a.wt t = some ts)
    (helapsed : ¬ write_timeout < now - ts) :
    (pollTag now (some sv) t a).cv t = some pv ∧
    (pollTag now (some sv) t a).wt t = some ts := by
  unfold pollTag
  dsimp only
  rw [h, hts]
  simp only [Option.getD_some, hne, if_false, helapsed]
  cases hle : a.le t with
  | none => exact ⟨h, hts⟩
  | some last =>
      dsimp only
      rw [finishTag_cv, finishTag_wt]
      exact ⟨h, hts⟩

/-- No pending write, last emitted differs from the (non-`None`) server
value: the server value is recorded in `updates`. -/
theorem pollTag_fresh (now : Int) (t : String) (a : CycleAcc) (v : Val)
    (last : Option Val) (h : a.cv t = none) (hle : a.le t = some last)
    (hne : last ≠ some v) :
    pollTag now (some (some v)) t a =
      { a with pollSuccess := true,
               updates := insertA a.updates t v,
               le := mupdate a.le t (some (some v)) } := by
  unfold pollTag
  dsimp only
  rw [h, hle]
  simp [finishTag, hne]

/-! ### Locality: processing one tag leaves every other tag's entries alone -/

theorem pollTag_apart (now : Int) (r : Option (Option Val)) (u t : String)
    (a : CycleAcc) (h : t ≠ u) :
    (pollTag now r u a).cv t = a.cv t ∧ (pollTag now r u a).wt t = a.wt t ∧
    (pollTag now r u a).le t = a.le t ∧
    lookupA (pollTag now r u a).updates t = lookupA a.updates t := by
  unfold pollTag
  cases r with
  | none => exact ⟨rfl, rfl, rfl, rfl⟩
  | some sv =>
    dsimp only
    cases hcv : a.cv u with
    | some cached =>
      dsimp only
      by_cases h1 : sv = some cached
      · simp only [h1, if_true]
        refine ⟨?_, ?_, ?_, ?_⟩
        · rw [finishTag_cv]; exact mupdate_ne _ _ _ _ h
        · rw [finishTag_wt]; exact mupdate_ne _ _ _ _ h
        · rw [finishTag_le_ne _ _ _ _ _ h]
        · rw [finishTag_updates_ne _ _ _ _ _ h]
      · by_cases h2 : write_timeout < now - (a.wt u).getD now
        · simp only [h1, if_false, h2, if_true]
          refine ⟨?_, ?_, ?_, ?_⟩
          · rw [finishTag_cv]; exact mupdate_ne _ _ _ _ h
          · rw [finishTag_wt]; exact mupdate_ne _ _ _ _ h
          · rw [finishTag_le_ne _ _ _ _ _ h]
          · rw [finishTag_updates_ne _ _ _ _ _ h]
        · simp only [h1, if_false, h2]
          cases hle : a.le u with
          | none => exact ⟨rfl, rfl, rfl, rfl⟩
          | some last =>
            refine ⟨?_, ?_, ?_, ?_⟩
            · rw [finishTag_cv]
            · rw [finishTag_wt]
            · rw [finishTag_le_ne _ _ _ _ _ h]
            · rw [finishTag_updates_ne _ _ _ _ _ h]
    | none =>
      dsimp only
      cases hle : a.le u with
      | none => exact ⟨rfl, rfl, rfl, rfl⟩
      | some last =>
        refine ⟨?_, ?_, ?_, ?_⟩
        · rw [finishTag_cv]
        · rw [finishTag_wt]
        · rw [finishTag_le_ne _ _ _ _ _ h]
        · rw [finishTag_updates_ne _ _ _ _ _ h]

/-- `poll_success` after one tag: set exactly when this read succeeded or
it was already set. -/
theorem pollTag_pollSuccess (now : Int) (r : Option (Option Val))
    (u : String) (a : CycleAcc) :
    (pollTag now r u a).pollSuccess = (a.pollSuccess || r.isSome) := by
  unfold pollTag
  cases r with
  | none => simp
  | some sv =>
    dsimp only
    cases hcv : a.cv u with
    | some cached =>
      dsimp only
      by_cases h1 : sv = some cached
      · simp [h1, finishTag_pollSuccess]
      · by_cases h2 : write_timeout < now - (a.wt u).getD now
        · simp [h1, h2, finishTag_pollSuccess]
        · simp only [h1, if_false, h2]
          cases hle : a.le u with
          | none => simp
          | some last => simp [finishTag_pollSuccess]
    | none =>
      dsimp only
      cases hle : a.le u with
      | none => simp
      | some last => simp [finishTag_pollSuccess]

/-! ### Folding the per-tag body over the node list -/

theorem pollNodes_nil (now : Int) (reads : String → Option (Option Val))
    (acc : CycleAcc) : pollNodes now reads [] acc = acc := rfl

theorem pollNodes_cons (now : Int) (reads : String → Option (Option Val))
    (p : String × Nat) (l : List (String × Nat)) (acc : CycleAcc) :
    pollNodes now reads (p :: l) acc =
      pollNodes now reads l (pollTag now (reads p.1) p.1 acc) := rfl

theorem pollNodes_append (now : Int) (reads : String → Option (Option Val))
    (l1 l2 : List (String × Nat)) (acc : CycleAcc) :
    pollNodes now reads (l1 ++ l2) acc =
      pollNodes now reads l2 (pollNodes now reads l1 acc) := by
  simp [pollNodes, List.foldl_append]

theorem pollNodes_apart (now : Int) (reads : String → Option (Option Val))
    (l : List (String × Nat)) (t : String) (acc : CycleAcc) :
    t ∉ keysA l →
    (pollNodes now reads l acc).cv t = acc.cv t ∧
    (pollNodes now reads l acc).wt t = acc.wt t ∧
    (pollNodes now reads l acc).le t = acc.le t ∧
    lookupA (pollNodes now reads l acc).updates t = lookupA acc.updates t := by
  induction l generalizing acc with
  | nil => exact fun _ => ⟨rfl, rfl, rfl, rfl⟩
  | cons p rest ih =>
    intro h
    have hh := not_mem_keysA_cons h
    have hstep := pollTag_apart now (reads p.1) p.1 t acc hh.1
    have hrest := ih (pollTag now (reads p.1) p.1 acc) hh.2
    rw [pollNodes_cons]
    exact ⟨hrest.1.trans hstep.1, hrest.2.1.trans hstep.2.1,
           hrest.2.2.1.trans hstep.2.2.1, hrest.2.2.2.trans hstep.2.2.2⟩

theorem pollNodes_pollSuccess (now : Int)
    (reads : String → Option (Option Val)) (l : List (String × Nat))
    (acc : CycleAcc) :
    (pollNodes now reads l acc).pollSuccess =
      (acc.pollSuccess || l.any fun p => (reads p.1).isSome) := by
  induction l generalizing acc with
  | nil => simp [pollNodes]
  | cons p rest ih =>
    rw [pollNodes_cons, ih, pollTag_pollSuccess]
    simp [Bool.or_assoc]

/-- Splitting the node list at one tag: the cycle's effect on that tag's
entries is exactly the effect of its own `pollTag` step. -/
theorem pollNodes_split (now : Int) (reads : String → Option (Option Val))
    (t : String) (h0 : Nat) (l1 l2 : List (String × Nat)) (acc : CycleAcc)
    (h2 : t ∉ keysA l2) :
    (pollNodes now reads (l1 ++ (t, h0) :: l2) acc).cv t =
      (pollTag now (reads t) t (pollNodes now reads l1 acc)).cv t ∧
    (pollNodes now reads (l1 ++ (t, h0) :: l2) acc).wt t =
      (pollTag now (reads t) t (pollNodes now reads l1 acc)).wt t ∧
    (pollNodes now reads (l1 ++ (t, h0) :: l2) acc).le t =
      (pollTag now (reads t) t (pollNodes now reads l1 acc)).le t ∧
    lookupA (pollNodes now reads (l1 ++ (t, h0) :: l2) acc).updates t =
      lookupA (pollTag now (reads t) t (pollNodes now reads l1 acc)).updates t ∧
    ((pollTag now (reads t) t (pollNodes now reads l1 acc)).pollSuccess = true →
      (pollNodes now reads (l1 ++ (t, h0) :: l2) acc).pollSuccess = true) := by
  rw [pollNodes_append, pollNodes_cons]
  have hap := pollNodes_apart now reads l2 t
    (pollTag now (reads t) t (pollNodes now reads l1 acc)) h2
  refine ⟨hap.1, hap.2.1, hap.2.2.1, hap.2.2.2, fun hp => ?_⟩
  rw [pollNodes_pollSuccess, hp]
  simp

/-! ### One-cycle lemmas about runCycle -/

theorem runCycle_state_maps (s : ClientState) (pfc : Nat) (now : Int)
    (reads : String → Option (Option Val)) :
    (runCycle s pfc now reads).state.current_values =
      (pollNodes now reads s.nodes (initAcc s)).cv ∧
    (runCycle s pfc now reads).state.write_timestamps =
      (pollNodes now reads s.nodes (initAcc s)).wt ∧
    (runCycle s pfc now reads).state.last_emitted_values =
      (pollNodes now reads s.nodes (initAcc s)).le ∧
    (runCycle s pfc now reads).state.nodes = s.nodes := by
  unfold runCycle
  dsimp only
  split
  · split
    · exact ⟨rfl, rfl, rfl, rfl⟩
    · exact ⟨rfl, rfl, rfl, rfl⟩
  · split
    · exact ⟨rfl, rfl, rfl, rfl⟩
    · exact ⟨rfl, rfl, rfl, rfl⟩

/-- On a cycle with at least one successful read and a non-empty
`updates` dict, `update_signal(updates)` is emitted. -/
theorem runCycle_batch_mem (s : ClientState) (pfc : Nat) (now : Int)
    (reads : String → Option (Option Val))
    (hps : (pollNodes now reads s.nodes (initAcc s)).pollSuccess = true)
    (hne : (pollNodes now reads s.nodes (initAcc s)).updates ≠ []) :
    Event.batch (pollNodes now reads s.nodes (initAcc s)).updates ∈
      (runCycle s pfc now reads).events := by
  unfold runCycle
  dsimp only
  rw [if_neg (by simp [hps])]
  dsimp only
  rw [if_neg hne]
  simp

/-- `connection_lost_signal` is emitted in a cycle exactly when no tag
read succeeded, the consecutive-failure count reaches 3, and the client
still believed itself connected. -/
theorem runCycle_lost_iff (s : ClientState) (pfc : Nat) (now : Int)
    (reads : String → Option (Option Val)) :
    Event.connectionLost ∈ (runCycle s pfc now reads).events ↔
      ((pollNodes now reads s.nodes (initAcc s)).pollSuccess = false ∧
       3 ≤ pfc + 1 ∧ s.is_connected = true) := by
  unfold runCycle
  dsimp only
  cases hps : (pollNodes now reads s.nodes (initAcc s)).pollSuccess with
  | false =>
    rw [if_pos rfl]
    by_cases hc : 3 ≤ pfc + 1 ∧ s.is_connected = true
    · rw [if_pos hc]
      simp [hc]
    · rw [if_neg hc]
      dsimp only
      constructor
      · intro h
        split at h <;> simp at h
      · intro h
        exact absurd ⟨h.2.1, h.2.2⟩ hc
  | true =>
    rw [if_neg (by simp)]
    dsimp only
    constructor
    · intro h
      rw [List.mem_append] at h
      rcases h with h | h
      · split at h <;> simp at h
      · split at h <;> simp at h
    · intro h
      simp at h

theorem runCycle_success (s : ClientState) (pfc : Nat) (now : Int)
    (reads : String → Option (Option Val))
    (hps : (pollNodes now reads s.nodes (initAcc s)).pollSuccess = true) :
    (runCycle s pfc now reads).pfc = 0 ∧
    (runCycle s pfc now reads).brk = false ∧
    (s.is_connected = true → (runCycle s pfc now reads).state.is_connected = true) := by
  unfold runCycle
  dsimp only
  rw [if_neg (by simp [hps])]
  refine ⟨rfl, rfl, fun hc => ?_⟩
  dsimp only
  split
  · rfl
  · exact hc

theorem runCycle_fail_noLost (s : ClientState) (pfc : Nat) (now : Int)
    (reads : String → Option (Option Val))
    (hps : (pollNodes now reads s.nodes (initAcc s)).pollSuccess = false)
    (hc : ¬ (3 ≤ pfc + 1 ∧ s.is_connected = true)) :
    (runCycle s pfc now reads).brk = false ∧
    (runCycle s pfc now reads).state.is_connected = s.is_connected ∧
    (runCycle s pfc now reads).pfc = pfc + 1 := by
  unfold runCycle
  dsimp only
  rw [if_pos hps, if_neg hc]
  exact ⟨rfl, rfl, rfl⟩

/-- When `connection_lost_signal` fires, the cycle `break`s out of the
poll loop and that cycle's event list is exactly the lost signal. -/
theorem runCycle_lost_shape (s : ClientState) (pfc : Nat) (now : Int)
    (reads : String → Option (Option Val))
    (h : Event.connectionLost ∈ (runCycle s pfc now reads).events) :
    (runCycle s pfc now reads).brk = true ∧
    (runCycle s pfc now reads).events = [Event.connectionLost] := by
  have hcond := (runCycle_lost_iff s pfc now reads).1 h
  unfold runCycle
  dsimp only
  rw [if_pos hcond.1, if_pos ⟨hcond.2.1, hcond.2.2⟩]
  exact ⟨rfl, rfl⟩

/-- Recogniser for value-batch events. -/
def isBatchEv : Event → Bool
  | Event.batch _ => true
  | _ => false

/-- Number of `connection_lost_signal` emissions in an event list. -/
def countLost (evs : List Event) : Nat :=
  evs.countP fun e => decide (e = Event.connectionLost)

theorem runCycle_batch_count (s : ClientState) (pfc : Nat) (now : Int)
    (reads : String → Option (Option Val)) :
    (runCycle s pfc now reads).events.countP isBatchEv ≤ 1 := by
  unfold runCycle
  dsimp only
  split
  · split
    · simp [List.countP_cons, isBatchEv]
    · dsimp only
      split
      · simp
      · simp [List.countP_cons, isBatchEv]
  · dsimp only
    rw [List.countP_append]
    have h1 : (if 0 < (pollNodes now reads s.nodes (initAcc s)).cfc ∧
        ({ s with current_values := (pollNodes now reads s.nodes (initAcc s)).cv,
                  write_timestamps := (pollNodes now reads s.nodes (initAcc s)).wt,
                  last_emitted_values := (pollNodes now reads s.nodes (initAcc s)).le,
                  connection_fail_count := (pollNodes now reads s.nodes (initAcc s)).cfc
           } : ClientState).is_connected = false then [Event.connectionRestored]
         else []).countP isBatchEv = 0 := by
      split <;> simp [List.countP_cons, isBatchEv]
    rw [h1]
    split
    · simp
    · simp [List.countP_cons, isBatchEv]

theorem runCycle_batch_nonempty (s : ClientState) (pfc : Nat) (now : Int)
    (reads : String → Option (Option Val)) (u : List (String × Val))
    (h : Event.batch u ∈ (runCycle s pfc now reads).events) : u ≠ [] := by
  unfold runCycle at h
  dsimp only at h
  split at h
  · split at h
    · simp at h
    · dsimp only at h
      split at h
      · simp at h
      · next hne =>
        simp at h
        exact h ▸ hne
  · dsimp only at h
    rw [List.mem_append] at h
    rcases h with h | h
    · split at h <;> simp at h
    · split at h
      · simp at h
      · next hne =>
        simp at h
        exact h ▸ hne

/-- A cycle whose `updates` dict stays empty emits no batch event. -/
theorem runCycle_no_batch (s : ClientState) (pfc : Nat) (now : Int)
    (reads : String → Option (Option Val))
    (h : (pollNodes now reads s.nodes (initAcc s)).updates = [])
    (u : List (String × Val)) :
    Event.batch u ∉ (runCycle s pfc now reads).events := by
  unfold runCycle
  dsimp only
  split
  · split
    · simp
    · simp [h]
  · dsimp only
    rw [List.mem_append]
    rintro (hm | hm)
    · split at hm <;> simp at hm
    · simp [h] at hm

/-- A tag is "quiet" for a cycle when its read either fails, or returns a
value that triggers no emission and settles no pending write: a pending
write that is neither confirmed nor timed out and already equals the last
emitted value, or no pending write and a server value equal to the last
emitted value. -/
def quietFor (cv : String → Option Val) (wt : String → Option Int)
    (le : String → Option (Option Val)) (now : Int)
    (r : Option (Option Val)) (t : String) : Prop :=
  ∀ sv, r = some sv →
    (∀ c, cv t = some c →
      sv ≠ some c ∧ ¬ write_timeout < now - ((wt t).getD now) ∧
      le t = some (some c)) ∧
    (cv t = none → le t = some sv)

/-- A quiet tag's `pollTag` step leaves all four dict components of the
accumulator untouched. -/
theorem pollTag_quiet (now : Int) (r : Option (Option Val)) (t : String)
    (a : CycleAcc) (hq : quietFor a.cv a.wt a.le now r t) :
    (pollTag now r t a).cv = a.cv ∧ (pollTag now r t a).wt = a.wt ∧
    (pollTag now r t a).le = a.le ∧ (pollTag now r t a).updates = a.updates := by
  unfold pollTag
  cases r with
  | none => exact ⟨rfl, rfl, rfl, rfl⟩
  | some sv =>
    dsimp only
    have hsv := hq sv rfl
    cases hcv : a.cv t with
    | some c =>
      dsimp only
      obtain ⟨hne, hnt, hle⟩ := hsv.1 c hcv
      rw [if_neg hne, if_neg hnt, hle]
      dsimp only
      rw [show (decide ((some c : Option Val) ≠ some c)) = false from by simp]
      exact ⟨rfl, rfl, rfl, rfl⟩
    | none =>
      dsimp only
      rw [hsv.2 hcv]
      dsimp only
      rw [show (decide (sv ≠ sv)) = false from by simp]
      exact ⟨rfl, rfl, rfl, rfl⟩

/-- Folding over a node list of quiet tags leaves all four dict
components untouched. -/
theorem pollNodes_quiet (now : Int) (reads : String → Option (Option Val))
    (l : List (String × Nat)) (acc : CycleAcc) :
    (∀ p ∈ l, quietFor acc.cv acc.wt acc.le now (reads p.1) p.1) →
    (pollNodes now reads l acc).cv = acc.cv ∧
    (pollNodes now reads l acc).wt = acc.wt ∧
    (pollNodes now reads l acc).le = acc.le ∧
    (pollNodes now reads l acc).updates = acc.updates := by
  induction l generalizing acc with
  | nil => exact fun _ => ⟨rfl, rfl, rfl, rfl⟩
  | cons p rest ih =>
    intro hq
    have hstep := pollTag_quiet now (reads p.1) p.1 acc
      (hq p (List.mem_cons_self _ _))
    have hrest := ih (pollTag now (reads p.1) p.1 acc) (by
      intro q hmem
      rw [hstep.1, hstep.2.1, hstep.2.2.1]
      exact hq q (List.mem_cons_of_mem _ hmem))
    rw [pollNodes_cons]
    exact ⟨hrest.1.trans hstep.1, hrest.2.1.trans hstep.2.1,
           hrest.2.2.1.trans hstep.2.2.1, hrest.2.2.2.trans hstep.2.2.2⟩

/-! ### Multi-cycle lemmas -/

theorem countLost_le_one_single (s : ClientState) (pfc : Nat) (now : Int)
    (reads : String → Option (Option Val)) :
    countLost (runCycle s pfc now reads).events ≤ 1 := by
  by_cases h : Event.connectionLost ∈ (runCycle s pfc now reads).events
  · rw [(runCycle_lost_shape s pfc now reads h).2]
    simp [countLost]
  · unfold countLost
    rw [List.countP_eq_zero.2 (by
      intro e he hd
      exact h ((of_decide_eq_true hd : e = Event.connectionLost) ▸ he))]
    exact Nat.zero_le 1

/-- Over any run of the inner poll loop, the lost signal fires at most
once: its emission `break`s the loop. -/
theorem runCycles_countLost (trace : List (Int × (String → Option (Option Val))))
    (s : ClientState) (pfc : Nat) :
    countLost (runCycles trace s pfc).2.2 ≤ 1 := by
  induction trace generalizing s pfc with
  | nil => simp [runCycles, countLost]
  | cons c rest ih =>
    unfold runCycles
    dsimp only
    split
    · exact countLost_le_one_single s pfc c.1 c.2
    · next hbrk =>
      have hnolost : countLost (runCycle s pfc c.1 c.2).events = 0 := by
        by_cases h : Event.connectionLost ∈ (runCycle s pfc c.1 c.2).events
        · exact absurd (runCycle_lost_shape s pfc c.1 c.2 h).1 hbrk
        · unfold countLost
          exact List.countP_eq_zero.2 (fun e he hd =>
            h ((of_decide_eq_true hd : e = Event.connectionLost) ▸ he))
      unfold countLost at hnolost ⊢
      rw [List.countP_append, hnolost]
      rw [Nat.zero_add]
      exact ih _ _

/-! ### Connect-step lemmas -/

theorem resolveNodes_not_mem (resolve : String → Option Nat)
    (tl : List (String × String)) (ns : List (String × Nat)) (t : String) :
    t ∉ keysA tl →
    lookupA (resolveNodes resolve tl ns) t = lookupA ns t := by
  induction tl generalizing ns with
  | nil => exact fun _ => rfl
  | cons p rest ih =>
    intro h
    have hh := not_mem_keysA_cons h
    show lookupA (resolveNodes resolve rest
      (match resolve p.2 with
       | some hdl => insertA ns p.1 hdl
       | none => ns)) t = lookupA ns t
    cases hr : resolve p.2 with
    | some hdl =>
      rw [ih _ hh.2]
      exact lookupA_insertA_ne _ _ _ _ hh.1
    | none =>
      exact ih _ hh.2

theorem resolveNodes_append (resolve : String → Option Nat)
    (l1 l2 : List (String × String)) (ns : List (String × Nat)) :
    resolveNodes resolve (l1 ++ l2) ns =
      resolveNodes resolve l2 (resolveNodes resolve l1 ns) := by
  simp [resolveNodes, List.foldl_append]

theorem resolveNodes_cons (resolve : String → Option Nat)
    (p : String × String) (l : List (String × String))
    (ns : List (String × Nat)) :
    resolveNodes resolve (p :: l) ns =
      resolveNodes resolve l
        (match resolve p.2 with
         | some hdl => insertA ns p.1 hdl
         | none => ns) := rfl

/-- Resolution failure for a tag leaves whatever handle the mapping
already had for it (possibly one from an earlier connection). -/
theorem resolveNodes_fail (resolve : String → Option Nat) (t nid : String)
    (l1 l2 : List (String × String)) (ns : List (String × Nat))
    (h1 : t ∉ keysA l1) (h2 : t ∉ keysA l2) (hr : resolve nid = none) :
    lookupA (resolveNodes resolve (l1 ++ (t, nid) :: l2) ns) t =
      lookupA ns t := by
  rw [resolveNodes_append, resolveNodes_cons]
  dsimp only
  rw [hr]
  rw [resolveNodes_not_mem _ _ _ _ h2]
  exact resolveNodes_not_mem _ _ _ _ h1

/-- Successful resolution stores the fresh handle. -/
theorem resolveNodes_ok (resolve : String → Option Nat) (t nid : String)
    (hdl : Nat) (l1 l2 : List (String × String)) (ns : List (String × Nat))
    (h2 : t ∉ keysA l2) (hr : resolve nid = some hdl) :
    lookupA (resolveNodes resolve (l1 ++ (t, nid) :: l2) ns) t = some hdl := by
  rw [resolveNodes_append, resolveNodes_cons]
  dsimp only
  rw [hr]
  rw [resolveNodes_not_mem _ _ _ _ h2]
  exact lookupA_insertA_self _ _ _

theorem resetEmitted_not_mem (nodes : List (String × Nat))
    (le0 : String → Option (Option Val)) (t : String) :
    t ∉ keysA nodes → resetEmitted nodes le0 t = le0 t := by
  induction nodes generalizing le0 with
  | nil => exact fun _ => rfl
  | cons p rest ih =>
    intro h
    have hh := not_mem_keysA_cons h
    show resetEmitted rest (mupdate le0 p.1 (some none)) t = le0 t
    rw [ih _ hh.2]
    exact mupdate_ne _ _ _ _ hh.1

/-- After the reconnect prologue, every mapped tag's last-emitted value
is the unknown marker `None`. -/
theorem resetEmitted_mem (nodes : List (String × Nat))
    (le0 : String → Option (Option Val)) (t : String) :
    t ∈ keysA nodes → resetEmitted nodes le0 t = some none := by
  induction nodes generalizing le0 with
  | nil => intro h; simp [keysA] at h
  | cons p rest ih =>
    intro h
    show resetEmitted rest (mupdate le0 p.1 (some none)) t = some none
    by_cases hm : t ∈ keysA rest
    · exact ih _ hm
    · have hp : t = p.1 := by
        rw [keysA_cons] at h
        rcases List.mem_cons.1 h with h | h
        · exact h
        · exact absurd h hm
      rw [resetEmitted_not_mem _ _ _ hm, hp]
      exact mupdate_self _ _ _

/-- A cycle read nothing successfully exactly when every mapped tag's
read raised. -/
theorem pollSuccess_false_iff (now : Int)
    (reads : String → Option (Option Val)) (s : ClientState) :
    (pollNodes now reads s.nodes (initAcc s)).pollSuccess = false ↔
      ∀ p ∈ s.nodes, reads p.1 = none := by
  rw [pollNodes_pollSuccess]
  show (false || _) = false ↔ _
  rw [Bool.false_or, List.any_eq_false]
  constructor
  · intro h p hp
    have h2 := h p hp
    cases hres : reads p.1 with
    | none => rfl
    | some x =>
      rw [hres] at h2
      simp at h2
  · intro h p hp
    simp [h p hp]

/-! ## Claim C10 -/

/-- C10: a `write_value` call made while the tag has no resolved handle,
or no client object exists, or the worker loop attribute has not been
created, is a silent no-op: the state is unchanged (no Pending Write
value or timestamp recorded) and nothing is dispatched to the server, so
`_write_async` never runs and no write-failed event can be emitted. -/
theorem c10_write_value_silent_noop (s : ClientState) (tag : String)
    (v : Val) (now : Int)
    (h : ¬ ((lookupA s.nodes tag).isSome ∧ s.hasClient = true ∧
            s.hasLoop = true)) :
    write_value s tag v now = (s, false) := by
  unfold write_value
  rw [if_neg h]

/-- C10 witness: on the freshly constructed client (no nodes, no client,
no loop) a write request changes nothing and dispatches nothing. -/
theorem c10_witness :
    ¬ ((lookupA (initState [("A", "n1")]).nodes "A").isSome ∧
       (initState [("A", "n1")]).hasClient = true ∧
       (initState [("A", "n1")]).hasLoop = true) ∧
    write_value (initState [("A", "n1")]) "A" (Val.vBool true) 0 =
      (initState [("A", "n1")], false) :=
  ⟨by decide,
   c10_write_value_silent_noop (initState [("A", "n1")]) "A"
     (Val.vBool true) 0 (by decide)⟩

/-! ## Claim C8 -/

/-- C8: when the transport write fails, `_write_async` emits exactly one
write-failed event carrying that tag's name, performs no retry, and
leaves the client state (in particular the tag's Pending Write entry)
untouched; the removal is the consumer's job — `PopupDialog._on_write_failed`
deletes the cached value. -/
theorem c8_write_failed_path :
    (∀ (s : ClientState) (tag : String),
      write_async s tag false = (s, [Event.writeFailed tag])) ∧
    (∀ (s : ClientState) (tag : String),
      (on_write_failed s tag).current_values tag = none) := by
  constructor
  · intro s tag
    rfl
  · intro s tag
    unfold on_write_failed
    split
    · exact mupdate_self _ _ _
    · next h =>
      cases hcv : s.current_values tag with
      | none => rfl
      | some v =>
        rw [hcv] at h
        simp at h

/-! ## Claim C9 -/

/-- Client state with one resolved tag and a live client, used to
exercise `read_value`. -/
def c9state : ClientState :=
  { tag_list := [("A", "n1")], nodes := [("A", 1)],
    current_values := fun _ => none, write_timestamps := fun _ => none,
    last_emitted_values := fun _ => none, is_connected := true,
    connection_fail_count := 0, hasClient := true, hasLoop := true }

/-- C9 counterexample: with a resolved tag and a live client,
`read_value` waits on `future.result()` without any timeout, so when the
worker never completes the read the caller blocks forever — the claimed
implicit round-trip timeout does not exist in the code. -/
theorem c9_counterexample :
    (lookupA c9state.nodes "A").isSome = true ∧
    c9state.hasClient = true ∧
    read_value c9state "A" none = ReadCall.blocksForever := by
  refine ⟨by decide, by decide, by decide⟩

/-- C9 amended: `read_value` returns the worker's reply (value or `None`)
when the worker completes the round-trip, and returns `None` immediately
when the tag is unresolved or no client exists; but the wait has no
timeout — `future.result()` is called with no timeout argument — so a
caller blocks indefinitely when the worker never responds. -/
theorem c9_read_value_behaviour :
    (∀ (s : ClientState) (tag : String) (reply : Option (Option Val)),
      ¬ ((lookupA s.nodes tag).isSome ∧ s.hasClient = true) →
      read_value s tag reply = ReadCall.returns none) ∧
    (∀ (s : ClientState) (tag : String) (r : Option Val),
      ((lookupA s.nodes tag).isSome ∧ s.hasClient = true) →
      read_value s tag (some r) = ReadCall.returns r) ∧
    (∀ (s : ClientState) (tag : String),
      ((lookupA s.nodes tag).isSome ∧ s.hasClient = true) →
      read_value s tag none = ReadCall.blocksForever) := by
  refine ⟨fun s tag reply h => ?_, fun s tag r h => ?_, fun s tag h => ?_⟩
  · unfold read_value
    rw [if_neg h]
  · unfold read_value
    rw [if_pos h]
  · unfold read_value
    rw [if_pos h]

/-- C9 witness: the three behaviours at concrete states. -/
theorem c9_witness :
    (¬ ((lookupA (initState []).nodes "A").isSome ∧
        (initState []).hasClient = true) ∧
      read_value (initState []) "A" none = ReadCall.returns none) ∧
    (((lookupA c9state.nodes "A").isSome ∧ c9state.hasClient = true) ∧
      read_value c9state "A" (some (some (Val.vBool true))) =
        ReadCall.returns (some (Val.vBool true))) ∧
    (((lookupA c9state.nodes "A").isSome ∧ c9state.hasClient = true) ∧
      read_value c9state "A" none = ReadCall.blocksForever) :=
  ⟨⟨by decide, c9_read_value_behaviour.1 (initState []) "A" none (by decide)⟩,
   ⟨by decide, c9_read_value_behaviour.2.1 c9state "A"
      (some (Val.vBool true)) (by decide)⟩,
   ⟨by decide, c9_read_value_behaviour.2.2 c9state "A" (by decide)⟩⟩

/-! ## Claim C3 -/

/-- C3: for a tag with a Pending Write whose polled server value differs
from the pending value, once `now - submitted_at` exceeds the 10-second
settlement timeout the poll cycle deletes both the pending value and the
timestamp, and the value recorded in the cycle's batch for that tag is
the polled server value, not the pending value. -/
theorem c3_timeout_abandons_write (s : ClientState) (pfc : Nat) (now : Int)
    (reads : String → Option (Option Val)) (t : String) (h0 : Nat)
    (l1 l2 : List (String × Nat)) (pv sv : Val) (ts : Int)
    (hn : s.nodes = l1 ++ (t, h0) :: l2)
    (h1 : t ∉ keysA l1) (h2 : t ∉ keysA l2)
    (hcv : s.current_values t = some pv)
    (hwt : s.write_timestamps t = some ts)
    (hr : reads t = some (some sv))
    (hne : sv ≠ pv)
    (hto : write_timeout < now - ts) :
    (runCycle s pfc now reads).state.current_values t = none ∧
    (runCycle s pfc now reads).state.write_timestamps t = none ∧
    ∃ u, Event.batch u ∈ (runCycle s pfc now reads).events ∧
      lookupA u t = some sv := by
  have hsm := runCycle_state_maps s pfc now reads
  have hap := pollNodes_apart now reads l1 t (initAcc s) h1
  have hcv1 : (pollNodes now reads l1 (initAcc s)).cv t = some pv := by
    rw [hap.1]
    exact hcv
  have hwt1 : (pollNodes now reads l1 (initAcc s)).wt t = some ts := by
    rw [hap.2.1]
    exact hwt
  have hstep := pollTag_timeout now t (pollNodes now reads l1 (initAcc s))
    pv sv ts hcv1 hne hwt1 hto
  have hsplit := pollNodes_split now reads t h0 l1 l2 (initAcc s) h2
  rw [hr, hstep] at hsplit
  refine ⟨?_, ?_, ?_⟩
  · rw [hsm.1, hn, hsplit.1]
    exact mupdate_self _ _ _
  · rw [hsm.2.1, hn, hsplit.2.1]
    exact mupdate_self _ _ _
  · refine ⟨(pollNodes now reads s.nodes (initAcc s)).updates, ?_, ?_⟩
    · apply runCycle_batch_mem
      · rw [hn]
        exact hsplit.2.2.2.2 rfl
      · rw [hn]
        apply lookupA_some_ne_nil _ t sv
        rw [hsplit.2.2.2.1]
        exact lookupA_insertA_self _ _ _
    · rw [hn, hsplit.2.2.2.1]
      exact lookupA_insertA_self _ _ _

/-- State for the C3 witness: one resolved tag `A` with a pending write
of `true` submitted at time 0, while the server keeps reporting `false`. -/
def c3state : ClientState :=
  { tag_list := [("A", "n1")], nodes := [("A", 1)],
    current_values := fun t => if t = "A" then some (Val.vBool true) else none,
    write_timestamps := fun t => if t = "A" then some (0 : Int) else none,
    last_emitted_values := fun t =>
      if t = "A" then some (some (Val.vBool false)) else none,
    is_connected := true, connection_fail_count := 0,
    hasClient := true, hasLoop := true }

/-- Reads used by the C3 witness: the server still reports `false`. -/
def c3reads : String → Option (Option Val) :=
  fun t => if t = "A" then some (some (Val.vBool false)) else none

/-- C3 witness: at time 11 (elapsed 11 > 10) the pending write of `true`
is abandoned and the batch carries the server's `false`. -/
theorem c3_witness :
    write_timeout < (11 : Int) - 0 ∧
    ((runCycle c3state 0 11 c3reads).state.current_values "A" = none ∧
     (runCycle c3state 0 11 c3reads).state.write_timestamps "A" = none ∧
     ∃ u, Event.batch u ∈ (runCycle c3state 0 11 c3reads).events ∧
       lookupA u "A" = some (Val.vBool false)) :=
  ⟨by decide,
   c3_timeout_abandons_write c3state 0 11 c3reads "A" 1 [] []
     (Val.vBool true) (Val.vBool false) 0 rfl (by decide) (by decide)
     (by decide) (by decide) (by decide) (by decide) (by decide)⟩

/-! ## Claim C2 -/

/-- C2: a second `submit_write` for the same tag before settlement
overwrites the Pending Write — the (function-map) cache then holds
exactly the newer value with the newer timestamp (a Python dict holds at
most one entry per key, so this is "exactly one Pending Write") — and a
subsequently polled server value equal to the superseded value `B` is
not treated as confirmation: within the settlement window the pending
entry (value `C`, timestamp) survives the cycle unchanged. -/
theorem c2_supersede :
    (∀ (s : ClientState) (t : String) (B C : Val) (n1 n2 : Int),
      ((lookupA s.nodes t).isSome ∧ s.hasClient = true ∧ s.hasLoop = true) →
      ((write_value (write_value s t B n1).1 t C n2).1.current_values t =
        some C ∧
       (write_value (write_value s t B n1).1 t C n2).1.write_timestamps t =
        some n2)) ∧
    (∀ (s : ClientState) (pfc : Nat) (now : Int)
      (reads : String → Option (Option Val)) (t : String) (h0 : Nat)
      (l1 l2 : List (String × Nat)) (B C : Val) (ts : Int),
      s.nodes = l1 ++ (t, h0) :: l2 → t ∉ keysA l1 → t ∉ keysA l2 →
      s.current_values t = some C → s.write_timestamps t = some ts →
      reads t = some (some B) → B ≠ C →
      ¬ write_timeout < now - ts →
      ((runCycle s pfc now reads).state.current_values t = some C ∧
       (runCycle s pfc now reads).state.write_timestamps t = some ts)) := by
  constructor
  · intro s t B C n1 n2 hg
    unfold write_value
    rw [if_pos hg]
    dsimp only
    rw [if_pos hg]
    dsimp only
    rw [mupdate_self, mupdate_self]
    exact ⟨rfl, rfl⟩
  · intro s pfc now reads t h0 l1 l2 B C ts hn hm1 hm2 hcv hwt hr hBC hwin
    have hsm := runCycle_state_maps s pfc now reads
    have hap := pollNodes_apart now reads l1 t (initAcc s) hm1
    have hcv1 : (pollNodes now reads l1 (initAcc s)).cv t = some C := by
      rw [hap.1]
      exact hcv
    have hwt1 : (pollNodes now reads l1 (initAcc s)).wt t = some ts := by
      rw [hap.2.1]
      exact hwt
    have hne : (some B : Option Val) ≠ some C := by
      simp [hBC]
    have hkeep := pollTag_window_keeps now t
      (pollNodes now reads l1 (initAcc s)) C (some B) ts hcv1 hne hwt1 hwin
    have hsplit := pollNodes_split now reads t h0 l1 l2 (initAcc s) hm2
    rw [hr] at hsplit
    constructor
    · rw [hsm.1, hn, hsplit.1]
      exact hkeep.1
    · rw [hsm.2.1, hn, hsplit.2.1]
      exact hkeep.2

/-- State for the C2 witness: tag `A` resolved, live client and loop. -/
def c2state : ClientState :=
  { tag_list := [("A", "n1")], nodes := [("A", 1)],
    current_values := fun _ => none, write_timestamps := fun _ => none,
    last_emitted_values := fun t =>
      if t = "A" then some (some (Val.vBool false)) else none,
    is_connected := true, connection_fail_count := 0,
    hasClient := true, hasLoop := true }

/-- Reads used by the C2 witness: the server reports the superseded
value `B = true`. -/
def c2reads : String → Option (Option Val) :=
  fun t => if t = "A" then some (some (Val.vBool true)) else none

/-- State for the C2 witness's second clause: pending write of
`C = false` (superseding an earlier `true`) submitted at time 1. -/
def c2state2 : ClientState :=
  { c2state with
    current_values := fun t => if t = "A" then some (Val.vBool false) else none,
    write_timestamps := fun t => if t = "A" then some (1 : Int) else none }

/-- C2 witness: writing `true` then `false` leaves one pending entry with
value `false` and timestamp 1; a poll at time 2 that reads the
superseded `true` does not settle it. -/
theorem c2_witness :
    (((lookupA c2state.nodes "A").isSome ∧ c2state.hasClient = true ∧
       c2state.hasLoop = true) ∧
     ((write_value (write_value c2state "A" (Val.vBool true) 0).1 "A"
         (Val.vBool false) 1).1.current_values "A" = some (Val.vBool false) ∧
      (write_value (write_value c2state "A" (Val.vBool true) 0).1 "A"
         (Val.vBool false) 1).1.write_timestamps "A" = some 1)) ∧
    ((runCycle c2state2 0 2 c2reads).state.current_values "A" =
       some (Val.vBool false) ∧
     (runCycle c2state2 0 2 c2reads).state.write_timestamps "A" = some 1) :=
  ⟨⟨by decide,
    c2_supersede.1 c2state "A" (Val.vBool true) (Val.vBool false) 0 1
      (by decide)⟩,
   c2_supersede.2 c2state2 0 2 c2reads "A" 1 [] [] (Val.vBool true)
     (Val.vBool false) 1 rfl (by decide) (by decide) (by decide) (by decide)
     (by decide) (by decide) (by decide)⟩

/-! ## Claim C1 -/

/-- Does a batch event carry value `v` for tag `t`? -/
def batchHas (t : String) (v : Val) : Event → Bool
  | Event.batch u => decide (lookupA u t = some v)
  | _ => false

/-- Base state for the C1 counterexample: tag `A` resolved, server value
`false` already emitted. -/
def c1base : ClientState :=
  { tag_list := [("A", "n1")], nodes := [("A", 1)],
    current_values := fun _ => none, write_timestamps := fun _ => none,
    last_emitted_values := fun t =>
      if t = "A" then some (some (Val.vBool false)) else none,
    is_connected := true, connection_fail_count := 0,
    hasClient := true, hasLoop := true }

/-- `submit_write(A, true)` at time 0. -/
def c1afterWrite : ClientState :=
  (write_value c1base "A" (Val.vBool true) 0).1

/-- Poll cycle at time 1: the server still reports `false`, so the
optimistic echo emits `true`. -/
def c1cycle1 : CycleResult :=
  runCycle c1afterWrite 0 1
    (fun t => if t = "A" then some (some (Val.vBool false)) else none)

/-- Poll cycle at time 2: the server now reports `true` (convergence
within the 10 s window), confirming the write. -/
def c1cycle2 : CycleResult :=
  runCycle c1cycle1.state c1cycle1.pfc 2
    (fun t => if t = "A" then some (some (Val.vBool true)) else none)

/-- C1 counterexample: `submit_write(A, true)` with the server converging
to `true` at elapsed 2 s (within the 10 s timeout) emits a batch
containing `true` for `A` TWICE — once as the optimistic echo and once
more on the confirming cycle, which re-emits even though the value
equals the last emitted value — so "exactly one batch containing B" is
false (the Pending Write is indeed gone afterwards). -/
theorem c1_counterexample :
    (c1cycle1.events ++ c1cycle2.events).countP
      (batchHas "A" (Val.vBool true)) = 2 ∧
    ¬ ((c1cycle1.events ++ c1cycle2.events).countP
      (batchHas "A" (Val.vBool true)) = 1) ∧
    c1cycle2.state.current_values "A" = none ∧
    (2 : Int) - 0 ≤ write_timeout := by
  refine ⟨by decide, by decide, by decide, by decide⟩

/-- C1 amended: when a poll cycle reads a server value equal to the
pending value, the Pending Write (value and timestamp) is removed and
the value is recorded in that cycle's batch — unconditionally, even when
it equals the Last Emitted Value, so the exchange can emit the written
value twice (optimistic echo, then confirmation).  Moreover submitting a
value the server already holds is not idempotent: `write_value` always
records a fresh Pending Write (removed on the next confirming cycle with
such a redundant emission). -/
theorem c1_confirmation (s : ClientState) (pfc : Nat) (now : Int)
    (reads : String → Option (Option Val)) (t : String) (h0 : Nat)
    (l1 l2 : List (String × Nat)) (B : Val)
    (hn : s.nodes = l1 ++ (t, h0) :: l2)
    (h1 : t ∉ keysA l1) (h2 : t ∉ keysA l2)
    (hcv : s.current_values t = some B)
    (hr : reads t = some (some B)) :
    ((runCycle s pfc now reads).state.current_values t = none ∧
     (runCycle s pfc now reads).state.write_timestamps t = none ∧
     ∃ u, Event.batch u ∈ (runCycle s pfc now reads).events ∧
       lookupA u t = some B) ∧
    (∀ (s2 : ClientState) (v : Val) (n : Int),
      ((lookupA s2.nodes t).isSome ∧ s2.hasClient = true ∧
        s2.hasLoop = true) →
      ((write_value s2 t v n).1.current_values t = some v ∧
       (write_value s2 t v n).1.write_timestamps t = some n ∧
       (write_value s2 t v n).2 = true)) := by
  constructor
  · have hsm := runCycle_state_maps s pfc now reads
    have hap := pollNodes_apart now reads l1 t (initAcc s) h1
    have hcv1 : (pollNodes now reads l1 (initAcc s)).cv t = some B := by
      rw [hap.1]
      exact hcv
    have hstep := pollTag_confirm now t (pollNodes now reads l1 (initAcc s))
      B hcv1
    have hsplit := pollNodes_split now reads t h0 l1 l2 (initAcc s) h2
    rw [hr, hstep] at hsplit
    refine ⟨?_, ?_, ?_⟩
    · rw [hsm.1, hn, hsplit.1]
      exact mupdate_self _ _ _
    · rw [hsm.2.1, hn, hsplit.2.1]
      exact mupdate_self _ _ _
    · refine ⟨(pollNodes now reads s.nodes (initAcc s)).updates, ?_, ?_⟩
      · apply runCycle_batch_mem
        · rw [hn]
          exact hsplit.2.2.2.2 rfl
        · rw [hn]
          apply lookupA_some_ne_nil _ t B
          rw [hsplit.2.2.2.1]
          exact lookupA_insertA_self _ _ _
      · rw [hn, hsplit.2.2.2.1]
        exact lookupA_insertA_self _ _ _
  · intro s2 v n hg
    unfold write_value
    rw [if_pos hg]
    dsimp only
    rw [mupdate_self, mupdate_self]
    exact ⟨rfl, rfl, rfl⟩

/-- State for the C1 witness: pending write of `true` on tag `A`. -/
def c1wstate : ClientState :=
  { tag_list := [("A", "n1")], nodes := [("A", 1)],
    current_values := fun t => if t = "A" then some (Val.vBool true) else none,
    write_timestamps := fun t => if t = "A" then some (0 : Int) else none,
    last_emitted_values := fun t =>
      if t = "A" then some (some (Val.vBool true)) else none,
    is_connected := true, connection_fail_count := 0,
    hasClient := true, hasLoop := true }

/-- Reads for the C1 witness: the server now reports the pending `true`. -/
def c1wreads : String → Option (Option Val) :=
  fun t => if t = "A" then some (some (Val.vBool true)) else none

/-- C1 witness: on the confirming cycle the pending entry vanishes and
the batch carries `true` (even though `true` was already the last
emitted value), and a fresh `write_value` records a pending entry. -/
theorem c1_witness :
    ((runCycle c1wstate 0 1 c1wreads).state.current_values "A" = none ∧
     (runCycle c1wstate 0 1 c1wreads).state.write_timestamps "A" = none ∧
     ∃ u, Event.batch u ∈ (runCycle c1wstate 0 1 c1wreads).events ∧
       lookupA u "A" = some (Val.vBool true)) ∧
    (∀ (s2 : ClientState) (v : Val) (n : Int),
      ((lookupA s2.nodes "A").isSome ∧ s2.hasClient = true ∧
        s2.hasLoop = true) →
      ((write_value s2 "A" v n).1.current_values "A" = some v ∧
       (write_value s2 "A" v n).1.write_timestamps "A" = some n ∧
       (write_value s2 "A" v n).2 = true)) :=
  c1_confirmation c1wstate 0 1 c1wreads "A" 1 [] [] (Val.vBool true)
    rfl (by decide) (by decide) (by decide) (by decide)

/-! ## Claim C4 -/

theorem connectStep_nodes (s : ClientState) (resolve : String → Option Nat) :
    (connectStep s resolve).1.nodes =
      resolveNodes resolve s.tag_list s.nodes := rfl

theorem connectStep_le (s : ClientState) (resolve : String → Option Nat) :
    (connectStep s resolve).1.last_emitted_values =
      resetEmitted (resolveNodes resolve s.tag_list s.nodes)
        s.last_emitted_values := rfl

theorem connectStep_cv (s : ClientState) (resolve : String → Option Nat) :
    (connectStep s resolve).1.current_values = s.current_values := rfl

/-- State before a reconnect for the C4 counterexample: tag `A` was
resolved on the previous connection with handle 1 and has a pending
write cached. -/
def c4prev : ClientState :=
  { tag_list := [("A", "n1")], nodes := [("A", 1)],
    current_values := fun t => if t = "A" then some (Val.vBool true) else none,
    write_timestamps := fun t => if t = "A" then some (0 : Int) else none,
    last_emitted_values := fun t =>
      if t = "A" then some (some (Val.vBool true)) else none,
    is_connected := false, connection_fail_count := 0,
    hasClient := true, hasLoop := true }

/-- C4 counterexample: on the new connection every resolution fails, yet
tag `A` is NOT absent from the name-to-handle mapping — it still maps to
the stale handle 1 from the previous connection, and the pending-write
cache also survives the reconnect; both contradict "all per-connection
state is discarded" and "absent from the mapping". -/
theorem c4_counterexample :
    lookupA (connectStep c4prev (fun _ => none)).1.nodes "A" = some 1 ∧
    ¬ (lookupA (connectStep c4prev (fun _ => none)).1.nodes "A" = none) ∧
    (connectStep c4prev (fun _ => none)).1.current_values "A" =
      some (Val.vBool true) := by
  refine ⟨by decide, by decide, by decide⟩

/-- C4 amended: reconnect resets the last-emitted value of every mapped
tag to the unknown marker and overwrites handles of tags that resolve
successfully, but the name-to-handle mapping and the pending-write cache
are NOT discarded: a tag whose resolution fails on the new connection
keeps whatever handle the mapping already had (possibly a stale one from
a previous connection) and continues to be polled through it. -/
theorem c4_reconnect_state :
    (∀ (s : ClientState) (resolve : String → Option Nat) (t : String),
      t ∈ keysA (connectStep s resolve).1.nodes →
      (connectStep s resolve).1.last_emitted_values t = some none) ∧
    (∀ (s : ClientState) (resolve : String → Option Nat) (t nid : String)
      (l1 l2 : List (String × String)),
      s.tag_list = l1 ++ (t, nid) :: l2 → t ∉ keysA l1 → t ∉ keysA l2 →
      resolve nid = none →
      lookupA (connectStep s resolve).1.nodes t = lookupA s.nodes t) ∧
    (∀ (s : ClientState) (resolve : String → Option Nat) (t nid : String)
      (hdl : Nat) (l1 l2 : List (String × String)),
      s.tag_list = l1 ++ (t, nid) :: l2 → t ∉ keysA l2 →
      resolve nid = some hdl →
      lookupA (connectStep s resolve).1.nodes t = some hdl) ∧
    (∀ (s : ClientState) (resolve : String → Option Nat),
      (connectStep s resolve).1.current_values = s.current_values) := by
  refine ⟨fun s resolve t hmem => ?_, fun s resolve t nid l1 l2 htl hm1 hm2 hr => ?_,
          fun s resolve t nid hdl l1 l2 htl hm2 hr => ?_, fun s resolve => rfl⟩
  · rw [connectStep_le]
    apply resetEmitted_mem
    rw [connectStep_nodes] at hmem
    exact hmem
  · rw [connectStep_nodes, htl]
    exact resolveNodes_fail resolve t nid l1 l2 s.nodes hm1 hm2 hr
  · rw [connectStep_nodes, htl]
    exact resolveNodes_ok resolve t nid hdl l1 l2 s.nodes hm2 hr

/-- C4 witness: on a reconnect where `A` re-resolves to handle 7 its
last-emitted value is reset to unknown and its handle is replaced; on a
reconnect where resolution fails the stale mapping survives, as does the
pending-write cache. -/
theorem c4_witness :
    ("A" ∈ keysA (connectStep c4prev (fun _ => some 7)).1.nodes ∧
     (connectStep c4prev (fun _ => some 7)).1.last_emitted_values "A" =
       some none) ∧
    lookupA (connectStep c4prev (fun _ => some 7)).1.nodes "A" = some 7 ∧
    lookupA (connectStep c4prev (fun _ => none)).1.nodes "A" =
      lookupA c4prev.nodes "A" ∧
    (connectStep c4prev (fun _ => none)).1.current_values =
      c4prev.current_values :=
  ⟨⟨by decide,
    c4_reconnect_state.1 c4prev (fun _ => some 7) "A" (by decide)⟩,
   c4_reconnect_state.2.2.1 c4prev (fun _ => some 7) "A" "n1" 7 [] []
     rfl (by decide) rfl,
   c4_reconnect_state.2.1 c4prev (fun _ => none) "A" "n1" [] []
     rfl (by decide) (by decide) rfl,
   c4_reconnect_state.2.2.2 c4prev (fun _ => none)⟩

/-! ## Claim C6 -/

/-- C6: the reconnect prologue reinitialises the Last Emitted Value of
every mapped tag to the unknown marker `None`, so on the first poll
cycle after (re)connect every tag that reads successfully (and has no
surviving pending write) is put into the batch — even when its value is
unchanged from before the outage — and the batch is delivered. -/
theorem c6_reconnect_reemits (s : ClientState)
    (resolve : String → Option Nat) (pfc : Nat) (now : Int)
    (reads : String → Option (Option Val)) (t : String) (h0 : Nat)
    (l1 l2 : List (String × Nat)) (v : Val)
    (hn : (connectStep s resolve).1.nodes = l1 ++ (t, h0) :: l2)
    (h1 : t ∉ keysA l1) (h2 : t ∉ keysA l2)
    (hcv : s.current_values t = none)
    (hr : reads t = some (some v)) :
    (connectStep s resolve).1.last_emitted_values t = some none ∧
    ∃ u, Event.batch u ∈
        (runCycle (connectStep s resolve).1 pfc now reads).events ∧
      lookupA u t = some v := by
  have hle : (connectStep s resolve).1.last_emitted_values t = some none := by
    rw [connectStep_le]
    apply resetEmitted_mem
    rw [← connectStep_nodes, hn]
    simp [keysA]
  refine ⟨hle, ?_⟩
  have hap := pollNodes_apart now reads l1 t (initAcc (connectStep s resolve).1) h1
  have hcv1 : (pollNodes now reads l1 (initAcc (connectStep s resolve).1)).cv t
      = none := by
    rw [hap.1]
    show (connectStep s resolve).1.current_values t = none
    rw [connectStep_cv]
    exact hcv
  have hle1 : (pollNodes now reads l1 (initAcc (connectStep s resolve).1)).le t
      = some none := by
    rw [hap.2.2.1]
    exact hle
  have hstep := pollTag_fresh now t
    (pollNodes now reads l1 (initAcc (connectStep s resolve).1)) v none
    hcv1 hle1 (by simp)
  have hsplit := pollNodes_split now reads t h0 l1 l2
    (initAcc (connectStep s resolve).1) h2
  rw [hr, hstep] at hsplit
  refine ⟨(pollNodes now reads (connectStep s resolve).1.nodes
      (initAcc (connectStep s resolve).1)).updates, ?_, ?_⟩
  · apply runCycle_batch_mem
    · rw [hn]
      exact hsplit.2.2.2.2 rfl
    · rw [hn]
      apply lookupA_some_ne_nil _ t v
      rw [hsplit.2.2.2.1]
      exact lookupA_insertA_self _ _ _
  · rw [hn, hsplit.2.2.2.1]
    exact lookupA_insertA_self _ _ _

/-- State before the reconnect of the C6 witness: the server value
`true` of tag `A` had already been emitted before the outage. -/
def c6prev : ClientState :=
  { tag_list := [("A", "n1")], nodes := [],
    current_values := fun _ => none, write_timestamps := fun _ => none,
    last_emitted_values := fun t =>
      if t = "A" then some (some (Val.vBool true)) else none,
    is_connected := false, connection_fail_count := 0,
    hasClient := true, hasLoop := true }

/-- Resolution on the new connection of the C6 witness. -/
def c6resolve : String → Option Nat := fun nid =>
  if nid = "n1" then some 5 else none

/-- Reads of the first post-reconnect cycle: the server still reports
the same `true` as before the outage. -/
def c6reads : String → Option (Option Val) :=
  fun t => if t = "A" then some (some (Val.vBool true)) else none

/-- C6 witness: after the reconnect the last-emitted value of `A` is the
unknown marker and the first cycle re-emits the unchanged `true`. -/
theorem c6_witness :
    (connectStep c6prev c6resolve).1.last_emitted_values "A" = some none ∧
    ∃ u, Event.batch u ∈
        (runCycle (connectStep c6prev c6resolve).1 0 1 c6reads).events ∧
      lookupA u "A" = some (Val.vBool true) :=
  c6_reconnect_reemits c6prev c6resolve 0 1 c6reads "A" 5 [] []
    (Val.vBool true) (by decide) (by decide) (by decide) (by decide)
    (by decide)

/-! ## Claim C5 -/

theorem countLost_eq_zero (evs : List Event)
    (h : Event.connectionLost ∉ evs) : countLost evs = 0 :=
  List.countP_eq_zero.2 (fun e he hd =>
    h ((of_decide_eq_true hd : e = Event.connectionLost) ▸ he))

theorem runCycles_nil (s : ClientState) (pfc : Nat) :
    runCycles [] s pfc = (s, pfc, []) := rfl

theorem runCycles_cons (c : Int × (String → Option (Option Val)))
    (rest : List (Int × (String → Option (Option Val))))
    (s : ClientState) (pfc : Nat) :
    runCycles (c :: rest) s pfc =
      if (runCycle s pfc c.1 c.2).brk then
        ((runCycle s pfc c.1 c.2).state, (runCycle s pfc c.1 c.2).pfc,
         (runCycle s pfc c.1 c.2).events)
      else
        ((runCycles rest (runCycle s pfc c.1 c.2).state
           (runCycle s pfc c.1 c.2).pfc).1,
         (runCycles rest (runCycle s pfc c.1 c.2).state
           (runCycle s pfc c.1 c.2).pfc).2.1,
         (runCycle s pfc c.1 c.2).events ++
           (runCycles rest (runCycle s pfc c.1 c.2).state
             (runCycle s pfc c.1 c.2).pfc).2.2) := rfl

theorem countLost_append (a b : List Event) :
    countLost (a ++ b) = countLost a + countLost b :=
  List.countP_append _ _ _

theorem runCycles_cons_events_nobrk
    (c : Int × (String → Option (Option Val)))
    (rest : List (Int × (String → Option (Option Val))))
    (s : ClientState) (pfc : Nat)
    (h : (runCycle s pfc c.1 c.2).brk = false) :
    (runCycles (c :: rest) s pfc).2.2 =
      (runCycle s pfc c.1 c.2).events ++
      (runCycles rest (runCycle s pfc c.1 c.2).state
        (runCycle s pfc c.1 c.2).pfc).2.2 := by
  rw [runCycles_cons, if_neg (by rw [h]; simp)]

theorem pollSuccess_true_of_exists (now : Int)
    (reads : String → Option (Option Val)) (s : ClientState)
    (h : ∃ p ∈ s.nodes, (reads p.1).isSome = true) :
    (pollNodes now reads s.nodes (initAcc s)).pollSuccess = true := by
  rw [pollNodes_pollSuccess]
  show (false || _) = true
  rw [Bool.false_or, List.any_eq_true]
  obtain ⟨p, hp, hs⟩ := h
  exact ⟨p, hp, hs⟩

/-- C5: health handling is threshold-gated and edge-triggered.
(1) A cycle with at least one successful tag read resets the
consecutive-failed-cycles counter to zero.  (2) The lost signal fires in
a cycle exactly when every mapped tag's read failed, the consecutive
count reaches 3, and health was still `connected`.  (3) Over any run of
the poll loop the lost signal fires at most once (its emission breaks
the loop).  (4) One fully-failed cycle among three consecutive cycles —
the other two each reading at least one tag — never produces the lost
signal when starting connected with a clean counter. -/
theorem c5_health_transitions :
    (∀ (s : ClientState) (pfc : Nat) (now : Int)
      (reads : String → Option (Option Val)),
      (∃ p ∈ s.nodes, (reads p.1).isSome = true) →
      (runCycle s pfc now reads).pfc = 0) ∧
    (∀ (s : ClientState) (pfc : Nat) (now : Int)
      (reads : String → Option (Option Val)),
      Event.connectionLost ∈ (runCycle s pfc now reads).events ↔
        ((∀ p ∈ s.nodes, reads p.1 = none) ∧ 3 ≤ pfc + 1 ∧
         s.is_connected = true)) ∧
    (∀ (trace : List (Int × (String → Option (Option Val))))
      (s : ClientState) (pfc : Nat),
      countLost (runCycles trace s pfc).2.2 ≤ 1) ∧
    (∀ (s : ClientState)
      (r1 r2 r3 : String → Option (Option Val)) (t1 t2 t3 : Int),
      s.is_connected = true →
      (∃ p ∈ s.nodes, (r2 p.1).isSome = true) →
      (∃ p ∈ s.nodes, (r3 p.1).isSome = true) →
      countLost (runCycles [(t1, r1), (t2, r2), (t3, r3)] s 0).2.2 = 0) := by
  refine ⟨fun s pfc now reads h => ?_, fun s pfc now reads => ?_,
          fun trace s pfc => runCycles_countLost trace s pfc,
          fun s r1 r2 r3 t1 t2 t3 hconn h2 h3 => ?_⟩
  · exact (runCycle_success s pfc now reads
      (pollSuccess_true_of_exists now reads s h)).1
  · rw [runCycle_lost_iff, pollSuccess_false_iff]
  · -- cycle 1: whatever happens, the count 0+1 = 1 < 3 forbids the lost
    -- signal and the loop continues
    have hnl1 : Event.connectionLost ∉ (runCycle s 0 t1 r1).events := by
      rw [runCycle_lost_iff]
      rintro ⟨-, h3, -⟩
      omega
    have hc1 : ¬ (3 ≤ 0 + 1 ∧ s.is_connected = true) := by
      rintro ⟨h3, -⟩
      omega
    have hbrk1 : (runCycle s 0 t1 r1).brk = false := by
      cases hps : (pollNodes t1 r1 s.nodes (initAcc s)).pollSuccess with
      | true => exact (runCycle_success s 0 t1 r1 hps).2.1
      | false => exact (runCycle_fail_noLost s 0 t1 r1 hps hc1).1
    have hconn1 : (runCycle s 0 t1 r1).state.is_connected = true := by
      cases hps : (pollNodes t1 r1 s.nodes (initAcc s)).pollSuccess with
      | true => exact (runCycle_success s 0 t1 r1 hps).2.2 hconn
      | false =>
        rw [(runCycle_fail_noLost s 0 t1 r1 hps hc1).2.1]
        exact hconn
    have hnodes1 : (runCycle s 0 t1 r1).state.nodes = s.nodes :=
      (runCycle_state_maps s 0 t1 r1).2.2.2
    -- cycle 2: a successful read forbids the lost signal
    have h2b : ∃ p ∈ (runCycle s 0 t1 r1).state.nodes,
        (r2 p.1).isSome = true := by
      rw [hnodes1]
      exact h2
    have hps2 := pollSuccess_true_of_exists t2 r2 (runCycle s 0 t1 r1).state h2b
    have hnl2 : Event.connectionLost ∉
        (runCycle (runCycle s 0 t1 r1).state (runCycle s 0 t1 r1).pfc
          t2 r2).events := by
      intro hmem
      have := ((runCycle_lost_iff _ _ _ _).1 hmem).1
      rw [pollSuccess_false_iff] at this
      have hfalse := pollSuccess_true_of_exists t2 r2
        (runCycle s 0 t1 r1).state h2b
      rw [(pollSuccess_false_iff t2 r2 (runCycle s 0 t1 r1).state).2 this]
        at hfalse
      exact Bool.false_ne_true hfalse
    have hbrk2 : (runCycle (runCycle s 0 t1 r1).state
        (runCycle s 0 t1 r1).pfc t2 r2).brk = false :=
      (runCycle_success _ _ _ _ hps2).2.1
    have hnodes2 : (runCycle (runCycle s 0 t1 r1).state
        (runCycle s 0 t1 r1).pfc t2 r2).state.nodes = s.nodes := by
      rw [(runCycle_state_maps _ _ _ _).2.2.2]
      exact hnodes1
    -- cycle 3: again a successful read forbids the lost signal
    have h3b : ∃ p ∈ (runCycle (runCycle s 0 t1 r1).state
        (runCycle s 0 t1 r1).pfc t2 r2).state.nodes,
        (r3 p.1).isSome = true := by
      rw [hnodes2]
      exact h3
    have hnl3 : Event.connectionLost ∉
        (runCycle (runCycle (runCycle s 0 t1 r1).state
            (runCycle s 0 t1 r1).pfc t2 r2).state
          (runCycle (runCycle s 0 t1 r1).state
            (runCycle s 0 t1 r1).pfc t2 r2).pfc t3 r3).events := by
      intro hmem
      have := ((runCycle_lost_iff _ _ _ _).1 hmem).1
      have hfalse := pollSuccess_true_of_exists t3 r3 _ h3b
      rw [this] at hfalse
      exact Bool.false_ne_true hfalse
    -- assemble the three cycles
    have hbrk3 : (runCycle (runCycle (runCycle s 0 t1 r1).state
        (runCycle s 0 t1 r1).pfc t2 r2).state
        (runCycle (runCycle s 0 t1 r1).state
          (runCycle s 0 t1 r1).pfc t2 r2).pfc t3 r3).brk = false :=
      (runCycle_success _ _ _ _ (pollSuccess_true_of_exists t3 r3 _ h3b)).2.1
    rw [runCycles_cons_events_nobrk _ _ _ _ hbrk1]
    dsimp only
    rw [runCycles_cons_events_nobrk _ _ _ _ hbrk2]
    dsimp only
    rw [runCycles_cons_events_nobrk _ _ _ _ hbrk3]
    dsimp only
    rw [runCycles_nil]
    rw [countLost_append, countLost_append, countLost_append]
    rw [countLost_eq_zero _ hnl1, countLost_eq_zero _ hnl2,
        countLost_eq_zero _ hnl3]
    rfl

/-- Connected state with tag `A` resolved, used by the C5 witness. -/
def c5ws : ClientState :=
  { tag_list := [("A", "n1")], nodes := [("A", 1)],
    current_values := fun _ => none, write_timestamps := fun _ => none,
    last_emitted_values := fun t =>
      if t = "A" then some (some (Val.vBool true)) else none,
    is_connected := true, connection_fail_count := 0,
    hasClient := true, hasLoop := true }

/-- Reads where tag `A` succeeds (C5 witness). -/
def c5ok : String → Option (Option Val) :=
  fun t => if t = "A" then some (some (Val.vBool true)) else none

/-- Reads where every read raises (C5 witness). -/
def c5fail : String → Option (Option Val) := fun _ => none

/-- C5 witness: a successful cycle resets the counter even from 2; the
lost-signal characterisation holds at the third fully-failed cycle; a
run emits the lost signal at most once; and the fail-ok-ok pattern from
a clean counter emits no lost signal. -/
theorem c5_witness :
    ((∃ p ∈ c5ws.nodes, (c5ok p.1).isSome = true) ∧
     (runCycle c5ws 2 1 c5ok).pfc = 0) ∧
    (Event.connectionLost ∈ (runCycle c5ws 2 1 c5fail).events ↔
      ((∀ p ∈ c5ws.nodes, c5fail p.1 = none) ∧ 3 ≤ 2 + 1 ∧
       c5ws.is_connected = true)) ∧
    countLost (runCycles [(1, c5fail), (2, c5fail), (3, c5fail),
      (4, c5fail)] c5ws 0).2.2 ≤ 1 ∧
    countLost (runCycles [(1, c5fail), (2, c5ok), (3, c5ok)] c5ws 0).2.2
      = 0 :=
  ⟨⟨by decide, c5_health_transitions.1 c5ws 2 1 c5ok (by decide)⟩,
   c5_health_transitions.2.1 c5ws 2 1 c5fail,
   c5_health_transitions.2.2.1 [(1, c5fail), (2, c5fail), (3, c5fail),
     (4, c5fail)] c5ws 0,
   c5_health_transitions.2.2.2 c5ws c5fail c5ok c5ok 1 2 3 rfl
     (by decide) (by decide)⟩

/-! ## Claim C7 -/

/-- Modelled from the spec (section 4.4): the per-tag candidate value
the Write Reconciler resolves for a cycle — server value when no write
is pending, the confirmed/abandoned server value when the pending write
settles, and the optimistic pending value within the window.  Used only
to state the claim's "candidate equals Last Emitted Value" premise
against the code. -/
def specCandidate (s : ClientState) (now : Int) (t : String)
    (sv : Option Val) : Option Val :=
  match s.current_values t with
  | none => sv
  | some pv =>
      if sv = some pv then sv
      else if write_timeout < now - ((s.write_timestamps t).getD now) then sv
      else some pv

/-- State for the C7 counterexample: pending write `true` on tag `A`
whose optimistic echo was already emitted (last emitted = `true`). -/
def c7cs : ClientState :=
  { tag_list := [("A", "n1")], nodes := [("A", 1)],
    current_values := fun t => if t = "A" then some (Val.vBool true) else none,
    write_timestamps := fun t => if t = "A" then some (0 : Int) else none,
    last_emitted_values := fun t =>
      if t = "A" then some (some (Val.vBool true)) else none,
    is_connected := true, connection_fail_count := 0,
    hasClient := true, hasLoop := true }

/-- Reads for the C7 counterexample: the server confirms `true`. -/
def c7creads : String → Option (Option Val) :=
  fun t => if t = "A" then some (some (Val.vBool true)) else none

/-- C7 counterexample: `A` is the only mapped tag, its candidate value
(the confirmed `true`) equals its Last Emitted Value, yet the cycle
emits one batch event — the confirmation branch sets `should_emit`
unconditionally — so "every candidate equals Last Emitted Value gives
zero events" is false. -/
theorem c7_counterexample :
    keysA c7cs.nodes = ["A"] ∧
    specCandidate c7cs 1 "A" (some (Val.vBool true)) =
      some (Val.vBool true) ∧
    c7cs.last_emitted_values "A" = some (some (Val.vBool true)) ∧
    (runCycle c7cs 0 1 c7creads).events =
      [Event.batch [("A", Val.vBool true)]] := by
  refine ⟨by decide, by decide, by decide, by decide⟩

/-- C7 amended: per poll cycle at most one value-batch event is
delivered and only when non-empty; and a cycle in which every mapped
tag is quiet — its read fails, or it has no pending write and the
server value equals the last emitted value, or it has a pending write
that is neither confirmed nor timed out whose value equals the last
emitted value — produces zero batch events.  (A cycle that settles a
pending write emits even when the candidate equals the last emitted
value, which is what the counterexample exhibits.) -/
theorem c7_batch_discipline :
    (∀ (s : ClientState) (pfc : Nat) (now : Int)
      (reads : String → Option (Option Val)),
      (runCycle s pfc now reads).events.countP isBatchEv ≤ 1) ∧
    (∀ (s : ClientState) (pfc : Nat) (now : Int)
      (reads : String → Option (Option Val)) (u : List (String × Val)),
      Event.batch u ∈ (runCycle s pfc now reads).events → u ≠ []) ∧
    (∀ (s : ClientState) (pfc : Nat) (now : Int)
      (reads : String → Option (Option Val)),
      (∀ p ∈ s.nodes, quietFor s.current_values s.write_timestamps
        s.last_emitted_values now (reads p.1) p.1) →
      ∀ u, Event.batch u ∉ (runCycle s pfc now reads).events) := by
  refine ⟨fun s pfc now reads => runCycle_batch_count s pfc now reads,
          fun s pfc now reads u h => runCycle_batch_nonempty s pfc now reads u h,
          fun s pfc now reads hq u => ?_⟩
  have hquiet := pollNodes_quiet now reads s.nodes (initAcc s) hq
  exact runCycle_no_batch s pfc now reads hquiet.2.2.2 u

/-- Quiet state for the C7 witness: no pending write and the server
value equals the last emitted value. -/
def c7qs : ClientState :=
  { tag_list := [("A", "n1")], nodes := [("A", 1)],
    current_values := fun _ => none, write_timestamps := fun _ => none,
    last_emitted_values := fun t =>
      if t = "A" then some (some (Val.vBool true)) else none,
    is_connected := true, connection_fail_count := 0,
    hasClient := true, hasLoop := true }

/-- Reads for the C7 witness's quiet cycle: unchanged server value. -/
def c7qreads : String → Option (Option Val) :=
  fun t => if t = "A" then some (some (Val.vBool true)) else none

/-- Emitting state for the C7 witness: the server value changed. -/
def c7es : ClientState :=
  { c7qs with last_emitted_values := fun t =>
      if t = "A" then some (some (Val.vBool false)) else none }

/-- C7 witness: the quiet cycle has at most one batch (in fact none at
all), a changed value yields a non-empty batch, and the quiet cycle
yields zero batch events. -/
theorem c7_witness :
    (runCycle c7qs 0 1 c7qreads).events.countP isBatchEv ≤ 1 ∧
    (Event.batch [("A", Val.vBool true)] ∈
        (runCycle c7es 0 1 c7qreads).events ∧
      [("A", Val.vBool true)] ≠ ([] : List (String × Val))) ∧
    (∀ u, Event.batch u ∉ (runCycle c7qs 0 1 c7qreads).events) :=
  have hq : ∀ p ∈ c7qs.nodes, quietFor c7qs.current_values
      c7qs.write_timestamps c7qs.last_emitted_values 1
      (c7qreads p.1) p.1 := by
    intro p hp
    have hp1 : p = ("A", 1) := by
      cases hp with
      | head => rfl
      | tail _ h => cases h
    subst hp1
    intro sv hsv
    refine ⟨fun c hc => ?_, fun _ => ?_⟩
    · exact absurd hc (by simp [c7qs])
    · have h1 : (some (some (Val.vBool true)) : Option (Option Val))
          = some sv := hsv
      have h2 : sv = some (Val.vBool true) := (Option.some.inj h1).symm
      rw [h2]
      decide
  ⟨c7_batch_discipline.1 c7qs 0 1 c7qreads,
   ⟨by decide, c7_batch_discipline.2.1 c7es 0 1 c7qreads
      [("A", Val.vBool true)] (by decide)⟩,
   fun u => c7_batch_discipline.2.2 c7qs 0 1 c7qreads hq u⟩
